import Mathlib

/-!
Verification of the streaming-chat backend.

Shallow embedding of the two source files that implement the send/stream
pipeline:

* `backend/src/openai-stream.ts` — `createAIStream`: builds the prompt,
  forwards stream fragments to `onChunk`, accumulates the full text, and
  translates failures before calling `onError`; returns a cancel handle
  that sets a `cancelled` flag checked before every callback site.
* `backend/src/routes/chats.ts` — the Express router: conversation CRUD,
  message listing ordered by `created_at`, and the POST send endpoint:
  validation, existence check, one `better-sqlite3` transaction inserting
  the user row and the assistant placeholder and touching the
  conversation, then SSE events driven by the `createAIStream` callbacks.

Modelling conventions: timestamps are `Nat` (ISO-8601 strings compare
chronologically, so only their order matters); the database is a pair of
row lists in insertion (rowid) order; `ORDER BY created_at ASC` is a
stable insertion sort on the creation timestamp, ties keeping insertion
order; JavaScript string operations (`trim`, `includes`, truthiness) are
modelled on `String`/`List Char`; statement failures of the store and of
the generation call are supplied as explicit parameters, since they are
environment behaviour.
-/

namespace StreamingChat

/-! ## JavaScript string primitives -/

/-- JS `pat` occurs as a contiguous substring of `s` (`String.prototype.includes`). -/
def containsSub (pat : List Char) : List Char → Bool
  | [] => pat.isEmpty
  | c :: s => pat.isPrefixOf (c :: s) || containsSub pat s

/-- JS `s.includes(pat)`. -/
def includes (s pat : String) : Bool := containsSub pat.data s.data

/-- JS `s.trim()`: drop whitespace from both ends. -/
def jsTrim (s : String) : String :=
  ⟨((s.data.dropWhile Char.isWhitespace).reverse.dropWhile Char.isWhitespace).reverse⟩

/-! ## Data model

Two tables, `conversations(id, title, created_at, updated_at)` and
`messages(id, conversation_id, role, content, status, error_message,
created_at)`, kept as lists in insertion (rowid) order. -/

/-- Message role: `role` is either `user` or `assistant`. -/
inductive Role
  | user
  | assistant
deriving DecidableEq, Repr

/-- Message status: `sending`, `sent`, or `failed`. -/
inductive Status
  | sending
  | sent
  | failed
deriving DecidableEq, Repr

/-- One row of the `messages` table. -/
structure MessageRow where
  id : String
  conversationId : String
  role : Role
  content : String
  status : Status
  errorMessage : Option String
  createdAt : Nat
deriving DecidableEq, Repr

/-- One row of the `conversations` table. -/
structure ConversationRow where
  id : String
  title : String
  createdAt : Nat
  updatedAt : Nat
deriving DecidableEq, Repr

/-- The whole store, each table in insertion (rowid) order. -/
structure DbState where
  conversations : List ConversationRow
  messages : List MessageRow
deriving DecidableEq, Repr

/-! ## better-sqlite3 `run()` result and the PATCH/DELETE handlers -/

/-- The info object returned by `stmt.run(...)` in better-sqlite3. -/
structure RunInfo where
  changes : Nat
  lastInsertRowid : Nat
deriving DecidableEq, Repr

/-- JS truthiness of the `run()` return value: it is always an object, and
objects are always truthy, so the `if (!row)` test in the PATCH and DELETE
handlers can never take the 404 branch. -/
def objectIsTruthy (_info : RunInfo) : Bool := true

/-- Response of the PATCH and DELETE conversation handlers:
`res.json(obj)` with the id taken from `row.lastInsertRowid`, or
`res.status(404).json(...)`. -/
inductive IdResponse
  | ok (id : Nat)
  | notFound
deriving DecidableEq, Repr

/-- `UPDATE conversations SET title = ?, updated_at = ? WHERE id = ?`:
returns the run info (`changes` = matched rows, `lastInsertRowid` = rowid
of the most recent INSERT on the connection, supplied as a parameter) and
the updated table. -/
def updateConversationRun (st : DbState) (id title : String) (now lastRid : Nat) :
    RunInfo × DbState :=
  (⟨(st.conversations.filter (fun c => c.id == id)).length, lastRid⟩,
   { st with conversations :=
      st.conversations.map (fun c =>
        if c.id == id then { c with title := title, updatedAt := now } else c) })

/-- `DELETE FROM conversations WHERE id = ?`.  Modelled from the spec: the
messages of the conversation are removed with it (cascading delete; the
schema file is not among the sources). -/
def deleteConversationRun (st : DbState) (id : String) (lastRid : Nat) :
    RunInfo × DbState :=
  (⟨(st.conversations.filter (fun c => c.id == id)).length, lastRid⟩,
   { conversations := st.conversations.filter (fun c => c.id != id),
     messages := st.messages.filter (fun m => m.conversationId != id) })

/-- `router.patch(...)`: run the UPDATE, then `if (!row) 404 else json(id)`. -/
def patchChat (st : DbState) (id title : String) (now lastRid : Nat) :
    IdResponse × DbState :=
  let r := updateConversationRun st id title now lastRid
  if objectIsTruthy r.1 = false then (IdResponse.notFound, st)
  else (IdResponse.ok r.1.lastInsertRowid, r.2)

/-- `router.delete(...)`: run the DELETE, then `if (!row) 404 else json(id)`. -/
def deleteChat (st : DbState) (id : String) (lastRid : Nat) :
    IdResponse × DbState :=
  let r := deleteConversationRun st id lastRid
  if objectIsTruthy r.1 = false then (IdResponse.notFound, st)
  else (IdResponse.ok r.1.lastInsertRowid, r.2)

/-! ## Generation client (`createAIStream`) -/

/-- Outcome of one OpenAI streaming call, as the code observes it:
`deltas` is the sequence of `chunk.choices[0]?.delta?.content` values of
the chunks the `for await` loop received (in arrival order), and
`streamErr` is the message of the error thrown by `create` or by the
iteration, if any, thrown after all of `deltas` were delivered. -/
structure GenOutcome where
  deltas : List (Option String)
  streamErr : Option String
deriving DecidableEq, Repr

/-- The `for await` loop: for each delta with truthy content, append it to
`fullText` and call `onChunk`.  Returns the final accumulation and the
arguments of the `onChunk` calls in order. -/
def streamLoop : List (Option String) → String → List String → String × List String
  | [], fullText, chunks => (fullText, chunks)
  | d :: ds, fullText, chunks =>
    match d with
    | some c =>
      if c == "" then streamLoop ds fullText chunks
      else streamLoop ds (fullText ++ c) (chunks ++ [c])
    | none => streamLoop ds fullText chunks

/-- The fragments of a delta sequence: the truthy (present and non-empty)
content values, in order.  These are exactly the `onChunk` arguments. -/
def fragments (deltas : List (Option String)) : List String :=
  deltas.filterMap (fun d =>
    match d with
    | some c => if c == "" then none else some c
    | none => none)

/-- Concatenation of a fragment list. -/
def joinStr (l : List String) : String := l.foldr (fun a b => a ++ b) ""

/-- Translated user-facing message for an authentication / key problem. -/
def configErrorMsg : String := "AI service configuration error. Please contact support."

/-- Translated user-facing message for a rate limit. -/
def busyMsg : String := "AI service is busy. Please try again in a moment."

/-- Translated user-facing message for exhausted quota. -/
def quotaMsg : String := "AI service quota exceeded. Please contact support."

/-- Translated user-facing message for any other failure. -/
def genericMsg : String := "AI service temporarily unavailable. Please try again."

/-- Message of the error thrown when the accumulated text is empty. -/
def noResponseMsg : String := "No response from AI"

/-- The catch block of `createAIStream`: map the raw error message to a
user-facing one.  The tests run in source order, first match wins:
`API key`, then `rate limit`, then `insufficient_quota`, else generic. -/
def translateError (m : String) : String :=
  if includes m "API key" then configErrorMsg
  else if includes m "rate limit" then busyMsg
  else if includes m "insufficient_quota" then quotaMsg
  else genericMsg

/-- Modelled from the spec (refinement comparison for the translation
rule): the spec says the longest / most specific matching keyword wins,
so the keywords are tested longest first: `insufficient_quota` (18
characters), then `rate limit` (10), then `API key` (7). -/
def translateErrorSpecRule (m : String) : String :=
  if includes m "insufficient_quota" then quotaMsg
  else if includes m "rate limit" then busyMsg
  else if includes m "API key" then configErrorMsg
  else genericMsg

/-- One callback invocation made by `createAIStream`. -/
inductive CbEvent
  | onChunkCall (c : String)
  | onErrorCall (m : String)
  | onDoneCall (c : String)
deriving DecidableEq, Repr

/-- Whether a callback invocation is terminal (`onError` or `onDone`). -/
def CbEvent.isTerminalCb : CbEvent → Bool
  | CbEvent.onChunkCall _ => false
  | CbEvent.onErrorCall _ => true
  | CbEvent.onDoneCall _ => true

/-- Whether a callback invocation is an `onError` call. -/
def CbEvent.isErrorCall : CbEvent → Bool
  | CbEvent.onErrorCall _ => true
  | _ => false

/-- Whether a callback invocation is an `onDone` call. -/
def CbEvent.isDoneCall : CbEvent → Bool
  | CbEvent.onDoneCall _ => true
  | _ => false

/-- The callback sequence of one non-cancelled `createAIStream` invocation:
the loop forwards the truthy deltas via `onChunk`; if an error was thrown
(by `create`, by the iteration, or by the empty-accumulation check, which
throws `No response from AI`), the catch block calls `onError` once with
the translated message; otherwise `onDone` is called once with the
accumulated text. -/
def createAIStream (gen : GenOutcome) : List CbEvent :=
  let r := streamLoop gen.deltas "" []
  let chunkCalls := r.2.map CbEvent.onChunkCall
  match gen.streamErr with
  | some m => chunkCalls ++ [CbEvent.onErrorCall (translateError m)]
  | none =>
    if r.1 == "" then chunkCalls ++ [CbEvent.onErrorCall (translateError noResponseMsg)]
    else chunkCalls ++ [CbEvent.onDoneCall r.1]

/-- The callback sequence when the cancel handle ran before the terminal
callback: the `cancelled` flag is observed after `cancelAt` deltas were
processed (`cancelAt = 0` covers cancellation before `create` returned).
Every callback site is guarded by a `cancelled` check — the loop breaks
before `onChunk`, the success branch tests `!cancelled`, and the catch
block returns — so only the chunks already forwarded are delivered. -/
def createAIStreamCancelled (gen : GenOutcome) (cancelAt : Nat) : List CbEvent :=
  ((streamLoop (gen.deltas.take cancelAt) "" []).2).map CbEvent.onChunkCall

/-- Role of one entry of the chat-completion prompt. -/
inductive PromptRole
  | system
  | user
  | assistant
deriving DecidableEq, Repr

/-- One entry of the `messages` array sent to the chat-completion call. -/
structure PromptMsg where
  role : PromptRole
  content : String
deriving DecidableEq, Repr

/-- One entry of the `conversationHistory` option (role + content). -/
structure HistMsg where
  role : Role
  content : String
deriving DecidableEq, Repr

/-- Embedding of a history role into a prompt role. -/
def promptRoleOf : Role → PromptRole
  | Role.user => PromptRole.user
  | Role.assistant => PromptRole.assistant

/-- The `messages` array built by `createAIStream`: the system
instructions first, then the conversation history in order, then the new
user message last. -/
def buildPrompt (instructions : String) (history : List HistMsg) (userMessage : String) :
    List PromptMsg :=
  ⟨PromptRole.system, instructions⟩ ::
    (history.map (fun m => ⟨promptRoleOf m.role, m.content⟩) ++
      [⟨PromptRole.user, userMessage⟩])

/-! ## Send endpoint (`POST /api/chats/:id/messages`) -/

/-- One SSE frame written by the send endpoint. -/
inductive SSEEvent
  | chunk (content : String)
  | done (messageId : String) (content : String)
  | error (msg : String)
deriving DecidableEq, Repr

/-- Whether an SSE frame is a `done` frame. -/
def SSEEvent.isDone : SSEEvent → Bool
  | SSEEvent.done _ _ => true
  | _ => false

/-- Whether an SSE frame is an `error` frame. -/
def SSEEvent.isError : SSEEvent → Bool
  | SSEEvent.error _ => true
  | _ => false

/-- Whether an SSE frame is terminal (`done` or `error`). -/
def SSEEvent.isTerminal (e : SSEEvent) : Bool := e.isDone || e.isError

/-- Behaviour of the two finalization UPDATE statements, supplied by the
environment: `doneUpdErr` / `errorUpdErr` carry the message of the error
the statement throws, `none` meaning it succeeds.  A failed statement
changes no row. -/
structure FinalizeFailure where
  doneUpdErr : Option String
  errorUpdErr : Option String
deriving DecidableEq, Repr

/-- Both finalization updates succeed. -/
def noFinalizeFailure : FinalizeFailure := ⟨none, none⟩

/-- The SSE frames produced once the `onError` path runs with message
`emsg`: the handler first runs the UPDATE to status `failed`; if that
statement throws, the exception escapes the catch block of
`createAIStream` (an unhandled rejection) and the error frame is never
written; otherwise the error frame is written and the response ends. -/
def errorPathEvents (emsg : String) (ff : FinalizeFailure) : List SSEEvent :=
  match ff.errorUpdErr with
  | some _ => []
  | none => [SSEEvent.error emsg]

/-- The SSE frames of one send, given the generation outcome and the
behaviour of the finalization updates.  Control flow follows the source:
`onChunk` writes a chunk frame per fragment; on a thrown stream error (or
the empty accumulation, thrown as `No response from AI`) the catch block
calls `onError` with the translated message; on success `onDone` first
runs the UPDATE to `sent` — if that statement throws, the exception
lands in the catch block of `createAIStream`, which translates it and
calls `onError`, so the `done` frame is never written. -/
def runSendStream (aid : String) (gen : GenOutcome) (ff : FinalizeFailure) :
    List SSEEvent :=
  let r := streamLoop gen.deltas "" []
  let chunkEvents := r.2.map SSEEvent.chunk
  match gen.streamErr with
  | some m => chunkEvents ++ errorPathEvents (translateError m) ff
  | none =>
    if r.1 == "" then chunkEvents ++ errorPathEvents (translateError noResponseMsg) ff
    else
      match ff.doneUpdErr with
      | none => chunkEvents ++ [SSEEvent.done aid r.1]
      | some m => chunkEvents ++ errorPathEvents (translateError m) ff

/-- `UPDATE messages SET content = ?, status = ? WHERE id = ?` (success
finalization). -/
def updateMessageDone (st : DbState) (aid fullText : String) : DbState :=
  { st with messages :=
      st.messages.map (fun m =>
        if m.id == aid then { m with content := fullText, status := Status.sent } else m) }

/-- `UPDATE messages SET status = ?, error_message = ? WHERE id = ?`
(failure finalization). -/
def updateMessageFailed (st : DbState) (aid emsg : String) : DbState :=
  { st with messages :=
      st.messages.map (fun m =>
        if m.id == aid then { m with status := Status.failed, errorMessage := some emsg } else m) }

/-- Store state after the `onError` path ran: the failed UPDATE applies
nothing when its statement throws. -/
def errorPathState (st : DbState) (aid emsg : String) (ff : FinalizeFailure) : DbState :=
  match ff.errorUpdErr with
  | some _ => st
  | none => updateMessageFailed st aid emsg

/-- Store state after the send finished, mirroring the branches of
`runSendStream`. -/
def finalizeState (st : DbState) (aid : String) (gen : GenOutcome) (ff : FinalizeFailure) :
    DbState :=
  let fullText := (streamLoop gen.deltas "" []).1
  match gen.streamErr with
  | some m => errorPathState st aid (translateError m) ff
  | none =>
    if fullText == "" then errorPathState st aid (translateError noResponseMsg) ff
    else
      match ff.doneUpdErr with
      | none => updateMessageDone st aid fullText
      | some m => errorPathState st aid (translateError m) ff

/-! ## The setup transaction -/

/-- Behaviour of the three write statements inside the setup transaction,
supplied by the environment (`true` = the statement throws). -/
structure SetupFailure where
  userInsertFails : Bool
  assistantInsertFails : Bool
  touchFails : Bool
deriving DecidableEq, Repr

/-- All three statements succeed. -/
def noSetupFailure : SetupFailure := ⟨false, false, false⟩

/-- The user message row inserted by the transaction: status `sent`. -/
def userMessageRow (cid uid t : String) (now : Nat) : MessageRow :=
  ⟨uid, cid, Role.user, t, Status.sent, none, now⟩

/-- The assistant placeholder row inserted by the transaction: empty
content, status `sending`, same `created_at` as the user row. -/
def assistantPlaceholderRow (cid aid : String) (now : Nat) : MessageRow :=
  ⟨aid, cid, Role.assistant, "", Status.sending, none, now⟩

/-- Stable insertion of a row into a list ascending by `createdAt`: the
new row goes after every row with an equal or smaller key. -/
def insertByCreatedAt (x : MessageRow) : List MessageRow → List MessageRow
  | [] => [x]
  | y :: ys =>
    if y.createdAt ≤ x.createdAt then y :: insertByCreatedAt x ys
    else x :: y :: ys

/-- `ORDER BY created_at ASC` over rows in insertion order: a stable sort,
ties keeping insertion (rowid) order. -/
def sortByCreatedAt (l : List MessageRow) : List MessageRow :=
  l.foldl (fun acc x => insertByCreatedAt x acc) []

/-- The `db.transaction` body of the send endpoint: insert the user
message, insert the assistant placeholder, touch the conversation
timestamp, then read back the history (every message of the conversation
except the placeholder, ordered by `created_at`) mapped to role +
content.  A thrown statement aborts the body; better-sqlite3 then rolls
the transaction back, so the caller keeps the original state. -/
def setupTransaction (st : DbState) (cid uid aid t : String) (now : Nat) (f : SetupFailure) :
    Except String (DbState × List HistMsg) :=
  if f.userInsertFails then Except.error "user insert failed"
  else
    let st1 : DbState := { st with messages := st.messages ++ [userMessageRow cid uid t now] }
    if f.assistantInsertFails then Except.error "assistant insert failed"
    else
      let st2 : DbState :=
        { st1 with messages := st1.messages ++ [assistantPlaceholderRow cid aid now] }
      if f.touchFails then Except.error "conversation update failed"
      else
        let st3 : DbState :=
          { st2 with conversations :=
              st2.conversations.map (fun c =>
                if c.id == cid then { c with updatedAt := now } else c) }
        let historyRows :=
          sortByCreatedAt (st3.messages.filter (fun m => m.conversationId == cid && m.id != aid))
        Except.ok (st3, historyRows.map (fun m => ⟨m.role, m.content⟩))

/-- `GET /api/chats/:id/messages`: all messages of the conversation,
ordered by `created_at` ascending. -/
def getMessages (st : DbState) (cid : String) : List MessageRow :=
  sortByCreatedAt (st.messages.filter (fun m => m.conversationId == cid))

/-- Result of the send endpoint as the client sees it: a plain JSON error
with its HTTP status, or the SSE frame sequence. -/
inductive SendResult
  | badRequest (msg : String)
  | notFound (msg : String)
  | serverError (msg : String)
  | streamed (events : List SSEEvent)
deriving DecidableEq, Repr

/-- Whether a send result is a 400 validation failure. -/
def SendResult.isBadRequest : SendResult → Bool
  | SendResult.badRequest _ => true
  | _ => false

/-- `router.post(...)`: the whole send endpoint.  `body` is the `content`
field of the request body (`none` covers a missing field and a non-string
value).  Validation runs before any store access; then the existence
check; then the setup transaction (a throw is caught and answered with a
plain 500 before any frame was written); then the stream runs and the
finalization updates apply. -/
def postMessage (st : DbState) (cid : String) (body : Option String)
    (uid aid : String) (now : Nat) (f : SetupFailure) (gen : GenOutcome)
    (ff : FinalizeFailure) : SendResult × DbState :=
  match body with
  | none => (SendResult.badRequest "Message content is required", st)
  | some content =>
    if content == "" then (SendResult.badRequest "Message content is required", st)
    else
      let trimmedContent := jsTrim content
      if trimmedContent.length == 0 then
        (SendResult.badRequest "Message content cannot be empty", st)
      else if trimmedContent.length > 10000 then
        (SendResult.badRequest "Message too long (max 10000 characters)", st)
      else if (st.conversations.find? (fun c => c.id == cid)).isNone then
        (SendResult.notFound "Conversation not found", st)
      else
        match setupTransaction st cid uid aid trimmedContent now f with
        | Except.error _ => (SendResult.serverError "Failed to process message", st)
        | Except.ok (st2, _hist) =>
          (SendResult.streamed (runSendStream aid gen ff), finalizeState st2 aid gen ff)

/-! ## Helper lemmas -/

/-- A string append is empty only when the left part is. -/
theorem append_eq_empty_left {a b : String} (h : a ++ b = "") : a = "" := by
  have hd : a.data ++ b.data = [] := by
    have := congrArg String.data h
    simpa [String.data_append] using this
  obtain ⟨la⟩ := a
  simp_all

/-- The loop of `createAIStream` accumulates the concatenation of the
fragments and calls `onChunk` once per fragment, in order. -/
theorem streamLoop_eq (ds : List (Option String)) :
    ∀ (acc : String) (chunks : List String),
      streamLoop ds acc chunks = (acc ++ joinStr (fragments ds), chunks ++ fragments ds) := by
  induction ds with
  | nil => intro acc chunks; simp [streamLoop, fragments, joinStr, String.append_empty]
  | cons d ds ih =>
    intro acc chunks
    match d with
    | none => simpa [streamLoop, fragments, List.filterMap_cons] using ih acc chunks
    | some c =>
      by_cases hc : c = ""
      · subst hc
        simpa [streamLoop, fragments, List.filterMap_cons] using ih acc chunks
      · have hbeq : (c == "") = false := by simpa using hc
        simp [streamLoop, hbeq, hc, fragments, List.filterMap_cons, ih, joinStr,
          String.append_assoc]

/-- Every fragment is a non-empty string. -/
theorem fragments_ne_empty {ds : List (Option String)} {c : String}
    (h : c ∈ fragments ds) : c ≠ "" := by
  simp only [fragments, List.mem_filterMap] at h
  obtain ⟨d, _, hd⟩ := h
  match d with
  | none => simp at hd
  | some c' =>
    by_cases hc : c' = ""
    · subst hc; simp at hd
    · have hbeq : (c' == "") = false := by simpa using hc
      simp [hbeq] at hd
      subst hd; exact hc

/-- The accumulated text is empty only when there were no fragments. -/
theorem joinStr_fragments_eq_empty {ds : List (Option String)}
    (h : joinStr (fragments ds) = "") : fragments ds = [] := by
  cases hf : fragments ds with
  | nil => rfl
  | cons c rest =>
    have hmem : c ∈ fragments ds := by
      rw [hf]
      exact List.mem_cons_self c rest
    have hc : c ≠ "" := fragments_ne_empty hmem
    rw [hf] at h
    have hcc : c ++ joinStr rest = "" := by simpa [joinStr] using h
    exact absurd (append_eq_empty_left hcc) hc

/-- Membership in a stable insertion. -/
theorem mem_insertByCreatedAt {a x : MessageRow} :
    ∀ {l : List MessageRow}, a ∈ insertByCreatedAt x l ↔ a = x ∨ a ∈ l := by
  intro l
  induction l with
  | nil => simp [insertByCreatedAt]
  | cons y ys ih =>
    by_cases hle : y.createdAt ≤ x.createdAt
    · simp [insertByCreatedAt, hle, ih]
      tauto
    · simp [insertByCreatedAt, hle]

/-- Membership in the sorted list is membership in the input. -/
theorem mem_sortByCreatedAt {a : MessageRow} {l : List MessageRow} :
    a ∈ sortByCreatedAt l ↔ a ∈ l := by
  suffices h : ∀ (l : List MessageRow) (acc : List MessageRow),
      (a ∈ List.foldl (fun acc x => insertByCreatedAt x acc) acc l ↔ a ∈ acc ∨ a ∈ l) by
    simpa [sortByCreatedAt] using h l []
  intro l
  induction l with
  | nil => intro acc; simp
  | cons x xs ih =>
    intro acc
    simp only [List.foldl_cons, ih, mem_insertByCreatedAt, List.mem_cons]
    tauto

/-- Inserting a row whose key is maximal appends it at the end. -/
theorem insertByCreatedAt_append {x : MessageRow} :
    ∀ {l : List MessageRow}, (∀ y ∈ l, y.createdAt ≤ x.createdAt) →
      insertByCreatedAt x l = l ++ [x] := by
  intro l
  induction l with
  | nil => intro _; rfl
  | cons y ys ih =>
    intro h
    have hy : y.createdAt ≤ x.createdAt := h y (List.mem_cons_self y ys)
    simp [insertByCreatedAt, hy, ih (fun z hz => h z (List.mem_cons_of_mem y hz))]

/-- Sorting after appending two rows stamped `now`, with every earlier row
at or before `now`: the two appended rows stay last, in order. -/
theorem sortByCreatedAt_append_two {l : List MessageRow} {u a : MessageRow} {now : Nat}
    (hl : ∀ y ∈ l, y.createdAt ≤ now) (hu : u.createdAt = now) (ha : a.createdAt = now) :
    sortByCreatedAt (l ++ [u, a]) = sortByCreatedAt l ++ [u, a] := by
  have h1 : sortByCreatedAt (l ++ [u, a]) =
      insertByCreatedAt a (insertByCreatedAt u (sortByCreatedAt l)) := by
    simp [sortByCreatedAt, List.foldl_append]
  have hsl : ∀ y ∈ sortByCreatedAt l, y.createdAt ≤ u.createdAt := by
    intro y hy
    exact hu ▸ hl y (mem_sortByCreatedAt.mp hy)
  have h2 : insertByCreatedAt u (sortByCreatedAt l) = sortByCreatedAt l ++ [u] :=
    insertByCreatedAt_append hsl
  have hsl2 : ∀ y ∈ sortByCreatedAt l ++ [u], y.createdAt ≤ a.createdAt := by
    intro y hy
    rcases List.mem_append.mp hy with hy | hy
    · exact ha ▸ hl y (mem_sortByCreatedAt.mp hy)
    · simp at hy
      subst hy
      rw [hu, ha]
  rw [h1, h2, insertByCreatedAt_append hsl2, List.append_assoc]
  rfl

/-- Counting with a predicate that rejects the image of the map. -/
theorem countP_map_eq_zero {α β : Type} (f : α → β) (p : β → Bool)
    (h : ∀ a, p (f a) = false) (l : List α) : (l.map f).countP p = 0 := by
  induction l with
  | nil => rfl
  | cons x xs ih => simp [List.countP_cons, h, ih]

/-- `runSendStream` in terms of fragments: the chunk frames, then the
terminal part determined by the generation outcome and the finalization
failures. -/
theorem runSendStream_eq (aid : String) (gen : GenOutcome) (ff : FinalizeFailure) :
    runSendStream aid gen ff =
      (fragments gen.deltas).map SSEEvent.chunk ++
        (match gen.streamErr with
         | some m => errorPathEvents (translateError m) ff
         | none =>
           if joinStr (fragments gen.deltas) = "" then
             errorPathEvents (translateError noResponseMsg) ff
           else
             match ff.doneUpdErr with
             | none => [SSEEvent.done aid (joinStr (fragments gen.deltas))]
             | some m => errorPathEvents (translateError m) ff) := by
  unfold runSendStream
  rw [streamLoop_eq]
  cases gen.streamErr with
  | some m => simp [String.empty_append]
  | none =>
    by_cases hj : joinStr (fragments gen.deltas) = ""
    · simp [String.empty_append, hj]
    · cases ff.doneUpdErr with
      | none => simp [String.empty_append, hj]
      | some m => simp [String.empty_append, hj]

/-- `createAIStream` in terms of fragments: the `onChunk` calls, then the
single terminal callback. -/
theorem createAIStream_eq (gen : GenOutcome) :
    createAIStream gen =
      (fragments gen.deltas).map CbEvent.onChunkCall ++
        (match gen.streamErr with
         | some m => [CbEvent.onErrorCall (translateError m)]
         | none =>
           if joinStr (fragments gen.deltas) = "" then
             [CbEvent.onErrorCall (translateError noResponseMsg)]
           else
             [CbEvent.onDoneCall (joinStr (fragments gen.deltas))]) := by
  unfold createAIStream
  rw [streamLoop_eq]
  cases gen.streamErr with
  | some m => simp [String.empty_append]
  | none =>
    by_cases hj : joinStr (fragments gen.deltas) = ""
    · simp [String.empty_append, hj]
    · simp [String.empty_append, hj]

/-- A string has length zero exactly when it is empty. -/
theorem string_length_eq_zero {s : String} : s.length = 0 ↔ s = "" := by
  obtain ⟨l⟩ := s
  constructor
  · intro h
    have hl : l = [] := List.length_eq_zero.mp h
    subst hl
    rfl
  · intro h
    have hl : l = [] := by
      have hd := congrArg String.data h
      simpa using hd
    subst hl
    rfl

/-- Sorting after appending rows all stamped `now`, with every earlier row
at or before `now`: the appended rows stay last, in their order. -/
theorem sortByCreatedAt_append_of_le {now : Nat} :
    ∀ {xs l : List MessageRow}, (∀ y ∈ l, y.createdAt ≤ now) →
      (∀ x ∈ xs, x.createdAt = now) →
      sortByCreatedAt (l ++ xs) = sortByCreatedAt l ++ xs := by
  intro xs
  induction xs with
  | nil => intro l _ _; simp
  | cons x rest ih =>
    intro l hl hxs
    have hx : x.createdAt = now := hxs x (List.mem_cons_self x rest)
    have hstep : sortByCreatedAt (l ++ [x]) = sortByCreatedAt l ++ [x] := by
      have hall : ∀ y ∈ sortByCreatedAt l, y.createdAt ≤ x.createdAt := by
        intro y hy
        exact hx ▸ hl y (mem_sortByCreatedAt.mp hy)
      have hfold : sortByCreatedAt (l ++ [x]) = insertByCreatedAt x (sortByCreatedAt l) := by
        unfold sortByCreatedAt
        rw [List.foldl_append]
        rfl
      rw [hfold]
      exact insertByCreatedAt_append hall
    have hl' : ∀ y ∈ l ++ [x], y.createdAt ≤ now := by
      intro y hy
      rcases List.mem_append.mp hy with hy | hy
      · exact hl y hy
      · simp at hy; subst hy; exact hx.le
    calc sortByCreatedAt (l ++ x :: rest)
        = sortByCreatedAt ((l ++ [x]) ++ rest) := by simp
      _ = sortByCreatedAt (l ++ [x]) ++ rest :=
          ih hl' (fun z hz => hxs z (List.mem_cons_of_mem x hz))
      _ = (sortByCreatedAt l ++ [x]) ++ rest := by rw [hstep]
      _ = sortByCreatedAt l ++ x :: rest := by simp

/-- The setup transaction with no statement failure: both rows appended,
conversation touched, history read back. -/
theorem setupTransaction_ok (st : DbState) (cid uid aid t : String) (now : Nat) :
    setupTransaction st cid uid aid t now noSetupFailure =
      Except.ok
        (⟨st.conversations.map (fun c => if c.id == cid then { c with updatedAt := now } else c),
          st.messages ++ [userMessageRow cid uid t now, assistantPlaceholderRow cid aid now]⟩,
         (sortByCreatedAt
            ((st.messages ++ [userMessageRow cid uid t now, assistantPlaceholderRow cid aid now]).filter
              (fun m => m.conversationId == cid && m.id != aid))).map
            (fun m => ⟨m.role, m.content⟩)) := by
  simp [setupTransaction, noSetupFailure]

/-- The setup transaction aborts when any of its statements throws. -/
theorem setupTransaction_error (st : DbState) (cid uid aid t : String) (now : Nat)
    {f : SetupFailure} (h : (f.userInsertFails || f.assistantInsertFails || f.touchFails) = true) :
    ∃ e, setupTransaction st cid uid aid t now f = Except.error e := by
  unfold setupTransaction
  by_cases h1 : f.userInsertFails = true
  · exact ⟨"user insert failed", by simp [h1]⟩
  · by_cases h2 : f.assistantInsertFails = true
    · exact ⟨"assistant insert failed", by simp [h1, h2]⟩
    · have h3 : f.touchFails = true := by
        simp [h1, h2] at h
        exact h
      exact ⟨"conversation update failed", by simp [h1, h2, h3]⟩

/-- Chunk frames are never `done` frames. -/
theorem countP_chunks_isDone (l : List String) :
    (l.map SSEEvent.chunk).countP SSEEvent.isDone = 0 :=
  countP_map_eq_zero _ _ (fun _ => rfl) l

/-- Chunk frames are never `error` frames. -/
theorem countP_chunks_isError (l : List String) :
    (l.map SSEEvent.chunk).countP SSEEvent.isError = 0 :=
  countP_map_eq_zero _ _ (fun _ => rfl) l

/-- Chunk frames are never terminal frames. -/
theorem countP_chunks_isTerminal (l : List String) :
    (l.map SSEEvent.chunk).countP SSEEvent.isTerminal = 0 :=
  countP_map_eq_zero _ _ (fun _ => rfl) l

/-- `onChunk` calls are never terminal callbacks. -/
theorem countP_chunkCalls_isTerminalCb (l : List String) :
    (l.map CbEvent.onChunkCall).countP CbEvent.isTerminalCb = 0 :=
  countP_map_eq_zero _ _ (fun _ => rfl) l

/-- `onChunk` calls are never `onError` calls. -/
theorem countP_chunkCalls_isErrorCall (l : List String) :
    (l.map CbEvent.onChunkCall).countP CbEvent.isErrorCall = 0 :=
  countP_map_eq_zero _ _ (fun _ => rfl) l

/-- `onChunk` calls are never `onDone` calls. -/
theorem countP_chunkCalls_isDoneCall (l : List String) :
    (l.map CbEvent.onChunkCall).countP CbEvent.isDoneCall = 0 :=
  countP_map_eq_zero _ _ (fun _ => rfl) l

/-! ## Claims -/

/-- C2: for a send whose generation yields fragments F1..Fn and completes
with a non-empty accumulation (finalization updates succeeding), the SSE
frames are exactly the chunk frames carrying F1..Fn in arrival order
followed by one `done` frame whose content is the concatenation of
F1..Fn; for a send whose generation fails after zero or more fragments,
the chunk frames are followed by exactly one `error` frame and no `done`
frame is emitted. -/
theorem c2_stream_events (aid : String) (gen : GenOutcome) :
    (gen.streamErr = none → joinStr (fragments gen.deltas) ≠ "" →
      runSendStream aid gen noFinalizeFailure =
        (fragments gen.deltas).map SSEEvent.chunk ++
          [SSEEvent.done aid (joinStr (fragments gen.deltas))])
    ∧ (∀ m, gen.streamErr = some m →
        runSendStream aid gen noFinalizeFailure =
          (fragments gen.deltas).map SSEEvent.chunk ++
            [SSEEvent.error (translateError m)]
        ∧ (runSendStream aid gen noFinalizeFailure).countP SSEEvent.isError = 1
        ∧ (runSendStream aid gen noFinalizeFailure).countP SSEEvent.isDone = 0) := by
  constructor
  · intro hnone hne
    rw [runSendStream_eq, hnone]
    simp [hne, noFinalizeFailure]
  · intro m hm
    have hev : runSendStream aid gen noFinalizeFailure =
        (fragments gen.deltas).map SSEEvent.chunk ++ [SSEEvent.error (translateError m)] := by
      rw [runSendStream_eq, hm]
      simp [errorPathEvents, noFinalizeFailure]
    refine ⟨hev, ?_, ?_⟩
    · rw [hev]
      simp [List.countP_append, countP_chunks_isError, List.countP_cons, SSEEvent.isError]
    · rw [hev]
      simp [List.countP_append, countP_chunks_isDone, List.countP_cons, SSEEvent.isDone]

/-- C2 witness: three deltas, one empty and filtered out, give two chunk
frames and a `done` frame carrying the concatenation. -/
theorem c2_stream_events_witness :
    runSendStream "a1" ⟨[some "Hel", none, some "lo"], none⟩ noFinalizeFailure =
      [SSEEvent.chunk "Hel", SSEEvent.chunk "lo", SSEEvent.done "a1" "Hello"] :=
  ((c2_stream_events "a1" ⟨[some "Hel", none, some "lo"], none⟩).1 rfl (by decide)).trans
    (by decide)

/-- C5: a stream that exhausts with empty accumulated text is handled via
the error path with the generic temporarily-unavailable message, never
via `onDone`; an `onDone` call never carries empty content. -/
theorem c5_empty_accumulation (gen : GenOutcome) :
    (gen.streamErr = none → joinStr (fragments gen.deltas) = "" →
      createAIStream gen = [CbEvent.onErrorCall genericMsg])
    ∧ (∀ s, CbEvent.onDoneCall s ∈ createAIStream gen → s ≠ "") := by
  constructor
  · intro hnone hj
    have hF : fragments gen.deltas = [] := joinStr_fragments_eq_empty hj
    have htrans : translateError noResponseMsg = genericMsg := by decide
    rw [createAIStream_eq, hnone]
    simp [hj, hF, htrans, joinStr]
  · intro s hs
    rw [createAIStream_eq] at hs
    rcases List.mem_append.mp hs with h | h
    · simp at h
    · cases hse : gen.streamErr with
      | some m => rw [hse] at h; simp at h
      | none =>
        rw [hse] at h
        by_cases hj : joinStr (fragments gen.deltas) = ""
        · simp [hj] at h
        · simp [hj] at h
          rw [h]
          exact hj

/-- C5 witness: the only delta is the empty string, so the accumulation
is empty and the single callback is `onError` with the generic message. -/
theorem c5_empty_accumulation_witness :
    createAIStream ⟨[some "", none], none⟩ = [CbEvent.onErrorCall genericMsg] :=
  (c5_empty_accumulation ⟨[some "", none], none⟩).1 rfl (by decide)

/-- C8: cancellation observed after `cancelAt` processed deltas delivers
only the chunks already forwarded — zero terminal callbacks fire after
cancellation; a non-cancelled invocation fires exactly one terminal
callback (`onError` or `onDone`). -/
theorem c8_cancellation (gen : GenOutcome) (cancelAt : Nat) :
    createAIStreamCancelled gen cancelAt =
      (fragments (gen.deltas.take cancelAt)).map CbEvent.onChunkCall
    ∧ (createAIStreamCancelled gen cancelAt).countP CbEvent.isTerminalCb = 0
    ∧ (createAIStream gen).countP CbEvent.isTerminalCb = 1 := by
  have h1 : createAIStreamCancelled gen cancelAt =
      (fragments (gen.deltas.take cancelAt)).map CbEvent.onChunkCall := by
    unfold createAIStreamCancelled
    rw [streamLoop_eq]
    simp
  refine ⟨h1, ?_, ?_⟩
  · rw [h1]
    exact countP_chunkCalls_isTerminalCb _
  · rw [createAIStream_eq]
    cases gen.streamErr with
    | some m =>
      simp [List.countP_append, countP_chunkCalls_isTerminalCb, List.countP_cons,
        CbEvent.isTerminalCb]
    | none =>
      by_cases hj : joinStr (fragments gen.deltas) = "" <;>
        simp [hj, List.countP_append, countP_chunkCalls_isTerminalCb, List.countP_cons,
          CbEvent.isTerminalCb]

/-- C4 counterexample: for the raw message `API key rate limit` the code
answers with the configuration-error message (the `API key` test runs
first), while the longest matching keyword is `rate limit`, whose rule
prescribes the busy message — so the longest / most-specific-match rule
does not describe the code. -/
theorem c4_counterexample :
    createAIStream ⟨[], some "API key rate limit"⟩ = [CbEvent.onErrorCall configErrorMsg]
    ∧ translateErrorSpecRule "API key rate limit" = busyMsg
    ∧ includes "API key rate limit" "API key" = true
    ∧ includes "API key rate limit" "rate limit" = true
    ∧ ("rate limit" : String).length > ("API key" : String).length
    ∧ configErrorMsg ≠ busyMsg := by decide

/-- C4 amended: on any generation failure `onError` is called exactly
once (and `onDone` never), with the message determined by testing the
raw error message in the fixed source order — `API key` first, then
`rate limit`, then `insufficient_quota` — the first match winning, and
anything else mapping to the generic temporarily-unavailable message. -/
theorem c4_error_translation (gen : GenOutcome) :
    (∀ m, gen.streamErr = some m →
      createAIStream gen =
        (fragments gen.deltas).map CbEvent.onChunkCall ++
          [CbEvent.onErrorCall (translateError m)]
      ∧ (createAIStream gen).countP CbEvent.isErrorCall = 1
      ∧ (createAIStream gen).countP CbEvent.isDoneCall = 0)
    ∧ (∀ m, includes m "API key" = true → translateError m = configErrorMsg)
    ∧ (∀ m, includes m "API key" = false → includes m "rate limit" = true →
        translateError m = busyMsg)
    ∧ (∀ m, includes m "API key" = false → includes m "rate limit" = false →
        includes m "insufficient_quota" = true → translateError m = quotaMsg)
    ∧ (∀ m, includes m "API key" = false → includes m "rate limit" = false →
        includes m "insufficient_quota" = false → translateError m = genericMsg) := by
  refine ⟨?_, ?_, ?_, ?_, ?_⟩
  · intro m hm
    have hev : createAIStream gen =
        (fragments gen.deltas).map CbEvent.onChunkCall ++
          [CbEvent.onErrorCall (translateError m)] := by
      rw [createAIStream_eq, hm]
    refine ⟨hev, ?_, ?_⟩
    · rw [hev]
      simp [List.countP_append, countP_chunkCalls_isErrorCall, List.countP_cons,
        CbEvent.isErrorCall]
    · rw [hev]
      simp [List.countP_append, countP_chunkCalls_isDoneCall, List.countP_cons,
        CbEvent.isDoneCall]
  · intro m h1
    simp [translateError, h1]
  · intro m h1 h2
    simp [translateError, h1, h2]
  · intro m h1 h2 h3
    simp [translateError, h1, h2, h3]
  · intro m h1 h2 h3
    simp [translateError, h1, h2, h3]

/-- C4 witness: a quota failure after one fragment gives that chunk
callback and one `onError` with the quota message. -/
theorem c4_error_translation_witness :
    createAIStream ⟨[some "Hi"], some "insufficient_quota for tokens"⟩ =
      [CbEvent.onChunkCall "Hi", CbEvent.onErrorCall quotaMsg] :=
  (((c4_error_translation ⟨[some "Hi"], some "insufficient_quota for tokens"⟩).1
      "insufficient_quota for tokens" rfl).1).trans (by decide)

/-- C1 counterexample: generation succeeds with full text `hi`, but the
success-finalization UPDATE throws (`disk error`); the exception lands in
the catch block of `createAIStream`, which translates it and runs the
error path, so the client receives an `error` frame and never the `done`
frame — the terminal event is determined by the storage failure, not by
the generation outcome.  The third conjunct shows the same generation
outcome with working storage ends in `done`. -/
theorem c1_counterexample :
    runSendStream "a1" ⟨[some "hi"], none⟩ ⟨some "disk error", none⟩ =
      [SSEEvent.chunk "hi", SSEEvent.error genericMsg]
    ∧ (runSendStream "a1" ⟨[some "hi"], none⟩ ⟨some "disk error", none⟩).countP
        SSEEvent.isDone = 0
    ∧ runSendStream "a1" ⟨[some "hi"], none⟩ noFinalizeFailure =
      [SSEEvent.chunk "hi", SSEEvent.done "a1" "hi"] := by decide

/-- C1 amended: the finalization storage updates are not swallowed.  When
the error-path UPDATE works, exactly one terminal frame is delivered;
when the success-path UPDATE throws, that single terminal frame is an
`error` frame carrying the translation of the storage message instead of
`done`; when the error path runs and its own UPDATE throws, the
exception escapes and no terminal frame is delivered at all.  The
terminal frame matches the generation outcome only when the relevant
updates succeed. -/
theorem c1_finalization_storage_failure (aid : String) (gen : GenOutcome)
    (ff : FinalizeFailure) :
    (ff.errorUpdErr = none → (runSendStream aid gen ff).countP SSEEvent.isTerminal = 1)
    ∧ (∀ m, ff.doneUpdErr = some m → ff.errorUpdErr = none → gen.streamErr = none →
        joinStr (fragments gen.deltas) ≠ "" →
        runSendStream aid gen ff =
          (fragments gen.deltas).map SSEEvent.chunk ++
            [SSEEvent.error (translateError m)])
    ∧ (gen.streamErr = none → joinStr (fragments gen.deltas) ≠ "" → ff.doneUpdErr = none →
        runSendStream aid gen ff =
          (fragments gen.deltas).map SSEEvent.chunk ++
            [SSEEvent.done aid (joinStr (fragments gen.deltas))])
    ∧ (∀ m2, ff.errorUpdErr = some m2 →
        (gen.streamErr = none → joinStr (fragments gen.deltas) ≠ "" → ff.doneUpdErr ≠ none) →
        (runSendStream aid gen ff).countP SSEEvent.isTerminal = 0) := by
  refine ⟨?_, ?_, ?_, ?_⟩
  · intro herr
    rw [runSendStream_eq]
    cases hse : gen.streamErr with
    | some m =>
      simp [errorPathEvents, herr, List.countP_append, countP_chunks_isTerminal,
        List.countP_cons, SSEEvent.isTerminal, SSEEvent.isError, SSEEvent.isDone]
    | none =>
      by_cases hj : joinStr (fragments gen.deltas) = ""
      · simp [hj, errorPathEvents, herr, List.countP_append, countP_chunks_isTerminal,
          List.countP_cons, SSEEvent.isTerminal, SSEEvent.isError, SSEEvent.isDone]
      · cases hd : ff.doneUpdErr with
        | none =>
          simp [hj, List.countP_append, countP_chunks_isTerminal,
            List.countP_cons, SSEEvent.isTerminal, SSEEvent.isError, SSEEvent.isDone]
        | some m =>
          simp [hj, errorPathEvents, herr, List.countP_append, countP_chunks_isTerminal,
            List.countP_cons, SSEEvent.isTerminal, SSEEvent.isError, SSEEvent.isDone]
  · intro m hd herr hse hj
    rw [runSendStream_eq, hse, hd]
    simp [hj, errorPathEvents, herr]
  · intro hse hj hd
    rw [runSendStream_eq, hse, hd]
    simp [hj]
  · intro m2 herr hpath
    rw [runSendStream_eq]
    cases hse : gen.streamErr with
    | some m =>
      simp [errorPathEvents, herr, List.countP_append, countP_chunks_isTerminal,
        SSEEvent.isTerminal, SSEEvent.isDone, SSEEvent.isError]
    | none =>
      by_cases hj : joinStr (fragments gen.deltas) = ""
      · simp [hj, errorPathEvents, herr, List.countP_append, countP_chunks_isTerminal,
          SSEEvent.isTerminal, SSEEvent.isDone, SSEEvent.isError]
      · cases hd : ff.doneUpdErr with
        | none => exact absurd hd (hpath hse hj)
        | some m =>
          simp [hj, errorPathEvents, herr, List.countP_append, countP_chunks_isTerminal,
            SSEEvent.isTerminal, SSEEvent.isDone, SSEEvent.isError]

/-- C1 amended witness: one fragment, the success-path UPDATE throws
`db locked`, the error-path UPDATE works: one `error` frame with the
generic message is delivered. -/
theorem c1_finalization_storage_failure_witness :
    runSendStream "a1" ⟨[some "hi"], none⟩ ⟨some "db locked", none⟩ =
      [SSEEvent.chunk "hi", SSEEvent.error genericMsg] :=
  ((c1_finalization_storage_failure "a1" ⟨[some "hi"], none⟩ ⟨some "db locked", none⟩).2.1
      "db locked" rfl rfl rfl (by decide)).trans (by decide)

/-- C7 (code bug): `stmt.run(...)` always returns an info object and
objects are always truthy, so the `if (!row)` 404 branch of the PATCH and
DELETE handlers is dead: a request for a non-existent conversation id is
answered 200 with `lastInsertRowid` (here 7), and existing ids are also
answered with `lastInsertRowid`, not the conversation identifier.  The
last two conjuncts show the handlers never answer 404 for any state. -/
theorem c7_patch_delete_never_404 :
    patchChat ⟨[], []⟩ "c9" "t" 5 7 = (IdResponse.ok 7, ⟨[], []⟩)
    ∧ deleteChat ⟨[], []⟩ "c9" 7 = (IdResponse.ok 7, ⟨[], []⟩)
    ∧ (⟨[], []⟩ : DbState).conversations.find? (fun c => c.id == "c9") = none
    ∧ (∀ st id title now lastRid, (patchChat st id title now lastRid).1 = IdResponse.ok lastRid)
    ∧ (∀ st id lastRid, (deleteChat st id lastRid).1 = IdResponse.ok lastRid) := by
  refine ⟨by decide, by decide, by decide, ?_, ?_⟩
  · intro st id title now lastRid
    simp [patchChat, objectIsTruthy, updateConversationRun]
  · intro st id lastRid
    simp [deleteChat, objectIsTruthy, deleteConversationRun]

/-- The all-letters test string of length `n`. -/
def aChars (n : Nat) : String := ⟨List.replicate n 'a'⟩

/-- Dropping whitespace from a run of letters drops nothing. -/
theorem dropWhile_ws_replicate (n : Nat) :
    (List.replicate n 'a').dropWhile Char.isWhitespace = List.replicate n 'a' := by
  cases n with
  | zero => rfl
  | succ k =>
    have hw : Char.isWhitespace 'a' = false := by decide
    rw [List.replicate_succ, List.dropWhile_cons, hw]
    simp [List.replicate_succ]

/-- Trimming an all-letters string changes nothing. -/
theorem jsTrim_aChars (n : Nat) : jsTrim (aChars n) = aChars n := by
  show String.mk
      (((List.replicate n 'a').dropWhile Char.isWhitespace).reverse.dropWhile
        Char.isWhitespace).reverse = String.mk (List.replicate n 'a')
  rw [dropWhile_ws_replicate, List.reverse_replicate, dropWhile_ws_replicate,
    List.reverse_replicate]

/-- Length of the all-letters test string. -/
theorem aChars_length (n : Nat) : (aChars n).length = n := by
  show (List.replicate n 'a').length = n
  simp

/-- The all-letters test string is non-empty for positive `n`. -/
theorem aChars_ne_empty {n : Nat} (h : 0 < n) : aChars n ≠ "" := by
  intro he
  have hd : List.replicate n 'a' = ([] : List Char) := congrArg String.data he
  have hlen := congrArg List.length hd
  simp at hlen
  omega

/-- C6: validation runs before any storage access — a missing or
non-string body, text empty after trimming, or trimmed text longer than
10000 characters is answered with a 400 `badRequest` and the store is
untouched; any text whose trimmed form is non-empty and at most 10000
characters long passes validation. -/
theorem c6_validation (st : DbState) (cid uid aid : String) (now : Nat) (f : SetupFailure)
    (gen : GenOutcome) (ff : FinalizeFailure) :
    postMessage st cid none uid aid now f gen ff =
      (SendResult.badRequest "Message content is required", st)
    ∧ (∀ c, jsTrim c = "" →
        ∃ m, postMessage st cid (some c) uid aid now f gen ff = (SendResult.badRequest m, st))
    ∧ (∀ c, (jsTrim c).length > 10000 →
        ∃ m, postMessage st cid (some c) uid aid now f gen ff = (SendResult.badRequest m, st))
    ∧ (∀ c, jsTrim c ≠ "" → (jsTrim c).length ≤ 10000 →
        (postMessage st cid (some c) uid aid now f gen ff).1.isBadRequest = false) := by
  refine ⟨rfl, ?_, ?_, ?_⟩
  · intro c hj
    by_cases hc : c = ""
    · subst hc
      exact ⟨"Message content is required", by simp [postMessage]⟩
    · exact ⟨"Message content cannot be empty", by simp [postMessage, hc, hj]⟩
  · intro c hlen
    have hc : c ≠ "" := by
      intro h
      subst h
      exact absurd hlen (by decide)
    have hne0 : ¬ (jsTrim c).length = 0 := by omega
    exact ⟨"Message too long (max 10000 characters)", by simp [postMessage, hc, hne0, hlen]⟩
  · intro c ht hlen
    have hc : c ≠ "" := by
      intro h
      subst h
      exact ht rfl
    have hne0 : ¬ (jsTrim c).length = 0 := fun h => ht (string_length_eq_zero.mp h)
    have hnot : ¬ (jsTrim c).length > 10000 := by omega
    by_cases hfind : (st.conversations.find? (fun cv => cv.id == cid)).isNone
    · simp [postMessage, hc, hne0, hnot, hfind, SendResult.isBadRequest]
    · cases hsetup : setupTransaction st cid uid aid (jsTrim c) now f with
      | error e =>
        simp [postMessage, hc, hne0, hnot, hfind, hsetup, SendResult.isBadRequest]
      | ok pr =>
        simp [postMessage, hc, hne0, hnot, hfind, hsetup, SendResult.isBadRequest]

/-- C6 witness: a conversation exists; text of exactly 10000 letters
passes validation, text of 10001 letters is rejected 400 with the store
unchanged. -/
theorem c6_validation_witness :
    (postMessage ⟨[⟨"c1", "T", 0, 0⟩], []⟩ "c1" (some (aChars 10000)) "u1" "a1" 9
        noSetupFailure ⟨[some "ok"], none⟩ noFinalizeFailure).1.isBadRequest = false
    ∧ ∃ m, postMessage ⟨[⟨"c1", "T", 0, 0⟩], []⟩ "c1" (some (aChars 10001)) "u1" "a1" 9
        noSetupFailure ⟨[some "ok"], none⟩ noFinalizeFailure =
      (SendResult.badRequest m, ⟨[⟨"c1", "T", 0, 0⟩], []⟩) :=
  ⟨(c6_validation ⟨[⟨"c1", "T", 0, 0⟩], []⟩ "c1" "u1" "a1" 9 noSetupFailure
      ⟨[some "ok"], none⟩ noFinalizeFailure).2.2.2 (aChars 10000)
      (by rw [jsTrim_aChars]; exact aChars_ne_empty (by omega))
      (by rw [jsTrim_aChars, aChars_length]),
   (c6_validation ⟨[⟨"c1", "T", 0, 0⟩], []⟩ "c1" "u1" "a1" 9 noSetupFailure
      ⟨[some "ok"], none⟩ noFinalizeFailure).2.2.1 (aChars 10001)
      (by rw [jsTrim_aChars, aChars_length]; omega)⟩

/-- C3: for a valid send (validation passing, conversation present) the
setup is all-or-nothing — if any statement of the transaction throws,
the endpoint answers a plain 500 and the store is exactly as before, so
no partial row is ever persisted; with no failure, the user row (status
`sent`), the placeholder row (status `sending`, empty content) and the
touched conversation timestamp all appear together. -/
theorem c3_atomic_setup (st : DbState) (cid c uid aid : String) (now : Nat)
    (f : SetupFailure) (gen : GenOutcome) (ff : FinalizeFailure)
    (hc : c ≠ "") (ht : jsTrim c ≠ "") (hlen : (jsTrim c).length ≤ 10000)
    (hconv : (st.conversations.find? (fun cv => cv.id == cid)).isNone = false) :
    ((f.userInsertFails || f.assistantInsertFails || f.touchFails) = true →
      postMessage st cid (some c) uid aid now f gen ff =
        (SendResult.serverError "Failed to process message", st))
    ∧ postMessage st cid (some c) uid aid now noSetupFailure gen ff =
        (SendResult.streamed (runSendStream aid gen ff),
         finalizeState
           ⟨st.conversations.map (fun cv =>
              if cv.id == cid then { cv with updatedAt := now } else cv),
            st.messages ++ [userMessageRow cid uid (jsTrim c) now,
              assistantPlaceholderRow cid aid now]⟩ aid gen ff) := by
  have hne0 : ¬ (jsTrim c).length = 0 := fun h => ht (string_length_eq_zero.mp h)
  have hnot : ¬ (jsTrim c).length > 10000 := by omega
  constructor
  · intro hf
    obtain ⟨e, he⟩ := setupTransaction_error st cid uid aid (jsTrim c) now hf
    simp [postMessage, hc, hne0, hnot, hconv, he]
  · simp [postMessage, hc, hne0, hnot, hconv, setupTransaction_ok]

/-- C3 witness: with a failing assistant insert the endpoint answers 500
and the store is unchanged; with no failure both rows appear. -/
theorem c3_atomic_setup_witness :
    postMessage ⟨[⟨"c1", "T", 0, 0⟩], []⟩ "c1" (some "yo") "u1" "a1" 9
        ⟨false, true, false⟩ ⟨[some "ok"], none⟩ noFinalizeFailure =
      (SendResult.serverError "Failed to process message", ⟨[⟨"c1", "T", 0, 0⟩], []⟩) :=
  (c3_atomic_setup ⟨[⟨"c1", "T", 0, 0⟩], []⟩ "c1" "yo" "u1" "a1" 9
      ⟨false, true, false⟩ ⟨[some "ok"], none⟩ noFinalizeFailure
      (by decide) (by decide) (by decide) (by decide)).1 rfl

/-- C9: the send transaction stamps the user row and the placeholder with
the same `created_at` and inserts the user row first; with every earlier
row of the store at or before that instant, the message listing (ordered
by `created_at` ascending, ties in insertion order) puts the sorted
earlier messages first and then the user message directly followed by
its placeholder — the user message always precedes its paired reply. -/
theorem c9_user_before_assistant (st : DbState) (cid uid aid t : String) (now : Nat)
    (hle : ∀ r ∈ st.messages, r.createdAt ≤ now) :
    ∀ st2 hist, setupTransaction st cid uid aid t now noSetupFailure = Except.ok (st2, hist) →
      getMessages st2 cid =
        sortByCreatedAt (st.messages.filter (fun m => m.conversationId == cid)) ++
          [userMessageRow cid uid t now, assistantPlaceholderRow cid aid now] := by
  intro st2 hist h
  have h' := (setupTransaction_ok st cid uid aid t now).symm.trans h
  simp only [Except.ok.injEq, Prod.mk.injEq] at h'
  obtain ⟨hst2, _⟩ := h'
  subst hst2
  unfold getMessages
  have hfilter :
      ((st.messages ++ [userMessageRow cid uid t now, assistantPlaceholderRow cid aid now]).filter
        (fun m => m.conversationId == cid)) =
      st.messages.filter (fun m => m.conversationId == cid) ++
        [userMessageRow cid uid t now, assistantPlaceholderRow cid aid now] := by
    rw [List.filter_append]
    simp [userMessageRow, assistantPlaceholderRow]
  rw [hfilter]
  exact sortByCreatedAt_append_of_le
    (fun y hy => hle y (List.mem_filter.mp hy).1)
    (by
      intro x hx
      rcases List.mem_cons.mp hx with hx | hx
      · subst hx; rfl
      · simp at hx
        subst hx
        rfl)

/-- C9 witness: one earlier message at instant 5, the send stamped 9 —
the listing returns the earlier message, then the user message, then the
placeholder. -/
theorem c9_user_before_assistant_witness :
    getMessages
      ⟨[⟨"c1", "T", 0, 9⟩],
       [⟨"m0", "c1", Role.user, "hi", Status.sent, none, 5⟩,
        userMessageRow "c1" "u1" "yo" 9, assistantPlaceholderRow "c1" "a1" 9]⟩ "c1" =
      [⟨"m0", "c1", Role.user, "hi", Status.sent, none, 5⟩,
       userMessageRow "c1" "u1" "yo" 9, assistantPlaceholderRow "c1" "a1" 9] :=
  (c9_user_before_assistant ⟨[⟨"c1", "T", 0, 0⟩], [⟨"m0", "c1", Role.user, "hi", Status.sent, none, 5⟩]⟩
      "c1" "u1" "a1" "yo" 9 (by decide) _ _ rfl).trans (by decide)

/-- C10: the history read back inside the transaction excludes only the
placeholder, so it ends with the just-inserted user message; the prompt
then appends the same user text again as the final user turn — the
prompt contains the new user message twice (the count conjunct makes the
duplication explicit). -/
theorem c10_prompt_duplicates_user_text (st : DbState) (cid uid aid t instr : String)
    (now : Nat)
    (hle : ∀ r ∈ st.messages, r.createdAt ≤ now)
    (hfresh : ∀ r ∈ st.messages, r.id ≠ aid)
    (huid : uid ≠ aid) :
    ∀ st2 hist, setupTransaction st cid uid aid t now noSetupFailure = Except.ok (st2, hist) →
      buildPrompt instr hist t =
        ⟨PromptRole.system, instr⟩ ::
          ((sortByCreatedAt (st.messages.filter (fun m => m.conversationId == cid))).map
            (fun m => ⟨promptRoleOf m.role, m.content⟩) ++
           [⟨PromptRole.user, t⟩, ⟨PromptRole.user, t⟩])
      ∧ 2 ≤ (buildPrompt instr hist t).countP
          (fun e => e == PromptMsg.mk PromptRole.user t) := by
  intro st2 hist h
  have h' := (setupTransaction_ok st cid uid aid t now).symm.trans h
  simp only [Except.ok.injEq, Prod.mk.injEq] at h'
  obtain ⟨_, hhist⟩ := h'
  subst hhist
  have hfilter :
      ((st.messages ++ [userMessageRow cid uid t now, assistantPlaceholderRow cid aid now]).filter
        (fun m => m.conversationId == cid && m.id != aid)) =
      st.messages.filter (fun m => m.conversationId == cid) ++ [userMessageRow cid uid t now] := by
    rw [List.filter_append]
    have h1 : st.messages.filter (fun m => m.conversationId == cid && m.id != aid) =
        st.messages.filter (fun m => m.conversationId == cid) := by
      apply List.filter_congr
      intro m hm
      have hne : m.id ≠ aid := hfresh m hm
      simp [hne]
    have h2 : ([userMessageRow cid uid t now, assistantPlaceholderRow cid aid now].filter
        (fun m => m.conversationId == cid && m.id != aid)) = [userMessageRow cid uid t now] := by
      simp [userMessageRow, assistantPlaceholderRow, huid]
    rw [h1, h2]
  have hsort :
      sortByCreatedAt (st.messages.filter (fun m => m.conversationId == cid) ++
        [userMessageRow cid uid t now]) =
      sortByCreatedAt (st.messages.filter (fun m => m.conversationId == cid)) ++
        [userMessageRow cid uid t now] :=
    sortByCreatedAt_append_of_le
      (fun y hy => hle y (List.mem_filter.mp hy).1)
      (by
        intro x hx
        simp at hx
        subst hx
        rfl)
  have hEq : buildPrompt instr
      ((sortByCreatedAt
        ((st.messages ++ [userMessageRow cid uid t now,
          assistantPlaceholderRow cid aid now]).filter
            (fun m => m.conversationId == cid && m.id != aid))).map
        (fun m => ⟨m.role, m.content⟩)) t =
      ⟨PromptRole.system, instr⟩ ::
        ((sortByCreatedAt (st.messages.filter (fun m => m.conversationId == cid))).map
          (fun m => ⟨promptRoleOf m.role, m.content⟩) ++
         [⟨PromptRole.user, t⟩, ⟨PromptRole.user, t⟩]) := by
    rw [hfilter, hsort]
    simp [buildPrompt, List.map_append, List.map_map, userMessageRow, promptRoleOf,
      Function.comp]
  refine ⟨hEq, ?_⟩
  rw [hEq]
  simp [List.countP_cons, List.countP_append]

/-- C10 witness: one prior exchange; the prompt ends with the new user
text twice — once from the read-back history, once appended. -/
theorem c10_prompt_duplicates_user_text_witness :
    buildPrompt "sys"
      ((setupTransaction ⟨[⟨"c1", "T", 0, 0⟩], [⟨"m0", "c1", Role.user, "hi", Status.sent, none, 5⟩]⟩
          "c1" "u1" "a1" "yo" 9 noSetupFailure).toOption.get (by decide)).2 "yo" =
      [⟨PromptRole.system, "sys"⟩, ⟨PromptRole.user, "hi"⟩,
       ⟨PromptRole.user, "yo"⟩, ⟨PromptRole.user, "yo"⟩] :=
  ((c10_prompt_duplicates_user_text
      ⟨[⟨"c1", "T", 0, 0⟩], [⟨"m0", "c1", Role.user, "hi", Status.sent, none, 5⟩]⟩
      "c1" "u1" "a1" "yo" "sys" 9 (by decide) (by decide) (by decide) _ _ rfl).1).trans
    (by decide)

end StreamingChat
